import Mathlib

/-!
Verification of the hyperweb webmention core (receiver, sender, extension
registry) against its natural-language specification.  The definitions below
are a shallow embedding of the TypeScript sources in `src/app/util.ts`
(extension registry and domain matcher), `src/app/receiver.ts` (inbound
request pipeline) and `src/app/sender.ts` (endpoint discovery and
notification).  Network fetches are modelled as oracle functions from URLs to
responses; HTML documents are modelled by their open-tag event stream (the
htmlparser2 tokenizer is an external library); JSON payload text is parsed by
an executable JSON reader defined here.
-/

/-! ## JSON values

JSON values as produced by `JSON.parse`.  Numbers keep their source lexeme
(no claim depends on numeric semantics); object fields keep document order.
The three types are mutual so that all recursions over values are plain
structural recursions. -/

mutual

inductive Json where
  | jnull : Json
  | jbool : Bool → Json
  | jnum : String → Json
  | jstr : String → Json
  | jarr : JsonList → Json
  | jobj : JsonFields → Json

inductive JsonList where
  | nil : JsonList
  | cons : Json → JsonList → JsonList

inductive JsonFields where
  | nil : JsonFields
  | cons : String → Json → JsonFields → JsonFields

end

/-! ## A small executable JSON reader

Implements the JSON grammar accepted by `JSON.parse`: the literals, strings
with escape sequences, numbers (kept as lexemes), arrays and objects, with
the four JSON whitespace characters.  Recursion is driven by a fuel counter
so every definition is structural and kernel-reducible.  (`\uXXXX` escapes
outside the Unicode scalar range decode to the null character rather than a
UTF-16 surrogate; no claim involves such input.) -/

def isJsonWs (c : Char) : Bool :=
  c = ' ' || c = '\t' || c = '\n' || c = '\r'

def skipWs (cs : List Char) : List Char :=
  cs.dropWhile isJsonWs

def hexVal (c : Char) : Option Nat :=
  if '0' ≤ c ∧ c ≤ '9' then some (c.toNat - '0'.toNat)
  else if 'a' ≤ c ∧ c ≤ 'f' then some (c.toNat - 'a'.toNat + 10)
  else if 'A' ≤ c ∧ c ≤ 'F' then some (c.toNat - 'A'.toNat + 10)
  else none

/-- Reads the remainder of a JSON string literal (the opening quote has been
consumed), decoding escapes; returns the string and the rest of the input. -/
def lexString (fuel : Nat) (cs : List Char) (acc : List Char) :
    Option (String × List Char) :=
  match fuel, cs with
  | 0, _ => none
  | _, [] => none
  | f + 1, c :: rest =>
    if c = '"' then some (String.mk acc.reverse, rest)
    else if c = '\\' then
      match rest with
      | [] => none
      | e :: rest2 =>
        if e = '"' then lexString f rest2 ('"' :: acc)
        else if e = '\\' then lexString f rest2 ('\\' :: acc)
        else if e = '/' then lexString f rest2 ('/' :: acc)
        else if e = 'b' then lexString f rest2 ('\x08' :: acc)
        else if e = 'f' then lexString f rest2 ('\x0c' :: acc)
        else if e = 'n' then lexString f rest2 ('\n' :: acc)
        else if e = 'r' then lexString f rest2 ('\r' :: acc)
        else if e = 't' then lexString f rest2 ('\t' :: acc)
        else if e = 'u' then
          match rest2 with
          | h1 :: h2 :: h3 :: h4 :: rest3 =>
            match hexVal h1, hexVal h2, hexVal h3, hexVal h4 with
            | some v1, some v2, some v3, some v4 =>
              lexString f rest3
                (Char.ofNat (((v1 * 16 + v2) * 16 + v3) * 16 + v4) :: acc)
            | _, _, _, _ => none
          | _ => none
        else none
    else if c.toNat < 32 then none
    else lexString f rest (c :: acc)

def isDigit (c : Char) : Bool := '0' ≤ c && c ≤ '9'

/-- Reads a JSON number lexeme (`-? int frac? exp?`). -/
def lexNumber (cs : List Char) : Option (String × List Char) :=
  let (sign, cs1) :=
    match cs with
    | '-' :: r => (['-'], r)
    | _ => (([] : List Char), cs)
  match cs1 with
  | [] => none
  | d :: _ =>
    if ¬ isDigit d then none
    else
      let (intPart, cs2) :=
        if d = '0' then (['0'], cs1.drop 1)
        else (cs1.takeWhile isDigit, cs1.dropWhile isDigit)
      -- a leading zero must not be followed by another digit
      if d = '0' ∧ (cs2.head?.map isDigit).getD false then none
      else
        let (fracPart, cs3) :=
          match cs2 with
          | '.' :: r =>
            let ds := r.takeWhile isDigit
            if ds.isEmpty then (none, cs2)
            else (some ('.' :: ds), r.dropWhile isDigit)
          | _ => (none, cs2)
        match fracPart, cs2 with
        | none, '.' :: _ => none
        | _, _ =>
          let (expPart, cs4) :=
            match cs3 with
            | e :: r =>
              if e = 'e' ∨ e = 'E' then
                let (es, r2) :=
                  match r with
                  | '+' :: r2 => (['+'], r2)
                  | '-' :: r2 => (['-'], r2)
                  | _ => (([] : List Char), r)
                let ds := r2.takeWhile isDigit
                if ds.isEmpty then (none, cs3)
                else (some (e :: es ++ ds), r2.dropWhile isDigit)
              else (none, cs3)
            | _ => (none, cs3)
          match expPart, cs3 with
          | none, e :: _ =>
            if e = 'e' ∨ e = 'E' then none
            else some (String.mk (sign ++ intPart ++ fracPart.getD []), cs3)
          | none, _ => some (String.mk (sign ++ intPart ++ fracPart.getD []), cs3)
          | some ep, _ => some (String.mk (sign ++ intPart ++ fracPart.getD [] ++ ep), cs4)

/-- Parses the elements of a non-empty JSON array after the first element has
been reached; `pElem` parses one value. -/
def pList (pElem : List Char → Option (Json × List Char)) :
    Nat → List Char → Option (JsonList × List Char)
  | 0, _ => none
  | f + 1, cs =>
    match pElem cs with
    | none => none
    | some (j, rest) =>
      match skipWs rest with
      | ',' :: r2 =>
        match pList pElem f r2 with
        | some (tl, r3) => some (.cons j tl, r3)
        | none => none
      | ']' :: r2 => some (.cons j .nil, r2)
      | _ => none

/-- Parses the fields of a non-empty JSON object; `pElem` parses one value. -/
def pFields (pElem : List Char → Option (Json × List Char)) :
    Nat → List Char → Option (JsonFields × List Char)
  | 0, _ => none
  | f + 1, cs =>
    match cs with
    | '"' :: r1 =>
      match lexString (r1.length + 1) r1 [] with
      | none => none
      | some (k, r2) =>
        match skipWs r2 with
        | ':' :: r3 =>
          match pElem r3 with
          | none => none
          | some (v, r4) =>
            match skipWs r4 with
            | ',' :: r5 =>
              match pFields pElem f (skipWs r5) with
              | some (tl, r6) => some (.cons k v tl, r6)
              | none => none
            | '\x7d' :: r5 => some (.cons k v .nil, r5)
            | _ => none
        | _ => none
    | _ => none

/-- Parses one JSON value (leading whitespace allowed). -/
def pJson : Nat → List Char → Option (Json × List Char)
  | 0, _ => none
  | f + 1, cs =>
    match skipWs cs with
    | 'n' :: 'u' :: 'l' :: 'l' :: rest => some (.jnull, rest)
    | 't' :: 'r' :: 'u' :: 'e' :: rest => some (.jbool true, rest)
    | 'f' :: 'a' :: 'l' :: 's' :: 'e' :: rest => some (.jbool false, rest)
    | '"' :: rest =>
      match lexString (rest.length + 1) rest [] with
      | some (s, r) => some (.jstr s, r)
      | none => none
    | '[' :: rest =>
      match skipWs rest with
      | ']' :: r2 => some (.jarr .nil, r2)
      | cs2 =>
        match pList (pJson f) f cs2 with
        | some (elems, r2) => some (.jarr elems, r2)
        | none => none
    | '\x7b' :: rest =>
      match skipWs rest with
      | '\x7d' :: r2 => some (.jobj .nil, r2)
      | cs2 =>
        match pFields (pJson f) f cs2 with
        | some (fields, r2) => some (.jobj fields, r2)
        | none => none
    | cs2 =>
      match lexNumber cs2 with
      | some (lexeme, r) => some (.jnum lexeme, r)
      | none => none

/-- `JSON.parse` on a whole document: one value and nothing but trailing
whitespace. -/
def parseJson (s : String) : Option Json :=
  match pJson (s.length + 1) s.toList with
  | some (j, rest) => if skipWs rest = [] then some j else none
  | none => none

/-- `JSON.parse(mention.payload ?? null)` from `parseExtension`: an absent
payload is coerced to the string form of `null`, which parses to the JSON
null value. -/
def jsonParseJs (payload : Option String) : Option Json :=
  match payload with
  | none => some Json.jnull
  | some s => parseJson s

/-! ## Extension registry (`src/app/util.ts`)

`Err` is the error response type (`class Err extends Response`): a message
and an HTTP status.  `ExtensionKind` is the stable ordinal enum (order
matters; `unknown = 0`, `basic = 1`, `like = 2`, `comment = 3`). -/

structure Err where
  message : String
  status : Nat
  deriving DecidableEq, Repr

inductive ExtensionKind where
  | unknown
  | basic
  | like
  | comment
  deriving DecidableEq, BEq, Repr

/-- A registered extension: its stable kind, definition URI and payload
schema.  The zod schema `empty = z.null().or(z.undefined()).or(z.object({}).strict())`
is modelled as a boolean validator on parsed JSON values (`undefined` cannot
arise from `JSON.parse`, and on success zod returns the input value
unchanged for these schemas). -/
structure Extension where
  kind : ExtensionKind
  definition : String
  payload : Json → Bool

def emptySchema (j : Json) : Bool :=
  match j with
  | .jnull => true
  | .jobj .nil => true
  | _ => false

def like : Extension :=
  { kind := .like
    definition := "https://webmention.feathers.studio/like/1.0/"
    payload := emptySchema }

def comment : Extension :=
  { kind := .comment
    definition := "https://webmention.feathers.studio/comment/1.0/"
    payload := emptySchema }

/-- The registry object `extensions = { [like.definition]: like,
[comment.definition]: comment }`, as an association list. -/
def extensions : List (String × Extension) :=
  [(like.definition, like), (comment.definition, comment)]

/-- The property names every plain object literal inherits from
`Object.prototype`; the `in` operator reports them as present, and the value
read for them is a prototype member, not a registry entry. -/
def objectPrototypeKeys : List String :=
  ["constructor", "hasOwnProperty", "isPrototypeOf", "propertyIsEnumerable",
    "toLocaleString", "toString", "valueOf", "__proto__", "__defineGetter__",
    "__defineSetter__", "__lookupGetter__", "__lookupSetter__"]

/-- Result of `definition in extensions` followed by
`extensions[definition]`: an own key yields its registry entry; a key found
on the prototype chain passes the `in` test but yields an inherited
`Object.prototype` member (whose `.payload` is `undefined`); anything else is
absent. -/
inductive RegistryHit (α : Type) where
  | own (val : α)
  | inherited
  | absent

/-- `definition in extensions` / `extensions[definition]`, including the
`in` operator's prototype-chain hits. -/
def extensionsLookup (d : String) : RegistryHit Extension :=
  match (extensions.find? (fun p => p.1 = d)).map (·.2) with
  | some e => .own e
  | none => if d ∈ objectPrototypeKeys then .inherited else .absent

/-- `Object.values(extensions)`. -/
def extensionValues : List Extension := extensions.map (·.2)

/-- `extensionFromKind = Object.fromEntries(Object.values(extensions).map(e =>
[e.kind, e]))`: a lookup keyed by kind, populated only with the registered
extensions (so kinds `unknown` and `basic` have no entry). -/
def extensionFromKind (k : ExtensionKind) : Option Extension :=
  extensionValues.find? (fun e => e.kind == k)

/-- The raw form fields handed to `parseExtension` (`source`, `target`,
optional `definition` and `payload`; a missing field is `none`). -/
structure RawMention where
  source : String
  target : String
  definition : Option String
  payload : Option String

/-- `ParsedWebmention`: the discriminated union of parse results.  `basic`
has payload `null`; `extended` carries a registered kind and its validated
payload; `unknownExt` wraps the raw definition URI together with the parsed
payload. -/
inductive ParsedWebmention where
  | basic (source target : String)
  | extended (source target : String) (kind : ExtensionKind) (payload : Json)
  | unknownExt (source target : String) (definition : String) (payload : Json)

def ParsedWebmention.kind : ParsedWebmention → ExtensionKind
  | .basic _ _ => .basic
  | .extended _ _ k _ => k
  | .unknownExt _ _ _ _ => .unknown

/-- JavaScript truthiness of an optional string: `undefined` and the empty
string are falsy. -/
def jsTruthyStr (s : Option String) : Bool :=
  match s with
  | none => false
  | some s => decide (s ≠ "")

/-- `definition in extensions` for the optional `mention.definition` (a
missing field reads as `undefined`, whose property key `"undefined"` is
neither an own nor an inherited key). -/
def definitionRegistered (d : Option String) : RegistryHit Extension :=
  match d with
  | none => .absent
  | some s => extensionsLookup s

def errInvalidPayloadJson : Err := ⟨"Payload is not valid JSON", 400⟩
def errInvalidPayload : Err := ⟨"Payload is not valid", 400⟩
def errPayloadWithoutDefinition : Err :=
  ⟨"Payload is not allowed without a definition field", 400⟩
def errInvalidKind : Err := ⟨"Invalid webmention kind", 400⟩

/-- How `parseExtension` fails: either by returning an `Err` response value,
or by throwing — when the definition passes the `in` test via the prototype
chain, `extensions[definition].payload` is `undefined` and calling
`.safeParse` on it raises an uncaught TypeError (the `try` block wraps only
`JSON.parse`). -/
inductive ParseFailure where
  | response (e : Err)
  | thrown
  deriving DecidableEq, Repr

/-- `parseExtension` from `src/app/util.ts`: parse the payload JSON first,
then dispatch on whether the definition is an own registry key, an inherited
prototype member (which throws), unregistered but truthy, or absent. -/
def parseExtension (mention : RawMention) : Except ParseFailure ParsedWebmention :=
  match jsonParseJs mention.payload with
  | none => .error (.response errInvalidPayloadJson)
  | some parsed =>
    match definitionRegistered mention.definition with
    | .own ext =>
      if ext.payload parsed then
        .ok (.extended mention.source mention.target ext.kind parsed)
      else .error (.response errInvalidPayload)
    | .inherited => .error .thrown
    | .absent =>
      if jsTruthyStr mention.definition then
        .ok (.unknownExt mention.source mention.target
          (mention.definition.getD "") parsed)
      else if jsTruthyStr mention.payload then
        .error (.response errPayloadWithoutDefinition)
      else .ok (.basic mention.source mention.target)

/-- `NormalisedWebmention`: definition URI plus payload, for persistence. -/
structure NormalisedWebmention where
  source : String
  target : String
  definition : String
  payload : Json

/-- `reparseExtension` from `src/app/util.ts`: look the stored kind up in
`extensionFromKind` (failing with `Invalid webmention kind` when there is no
entry), then map back to a definition URI and payload.  The `unknown` branch
mirrors the source even though the preceding lookup already fails for that
kind. -/
def reparseExtension (webmention : ParsedWebmention) : Except Err NormalisedWebmention :=
  match extensionFromKind webmention.kind with
  | none => .error errInvalidKind
  | some d =>
    match webmention with
    | .unknownExt s t defn p => .ok ⟨s, t, defn, p⟩
    | .extended s t _ p => .ok ⟨s, t, d.definition, p⟩
    | .basic s t => .ok ⟨s, t, d.definition, Json.jnull⟩

/-! ## The richer registry variant (`extensions.ts` of the mentions package)

The package version of `parseExtension` returns a `GenericWebmention`
(definition URI instead of a kind ordinal) and supports a
`banUnknownExtensions` option. -/

structure ExtensionB where
  definition : String
  payload : Json → Bool

def mentionB : ExtensionB :=
  ⟨"https://webmention.feathers.studio/mention/1.0/", emptySchema⟩

def likeB : ExtensionB :=
  ⟨"https://webmention.feathers.studio/like/1.0/", emptySchema⟩

def commentB : ExtensionB :=
  ⟨"https://webmention.feathers.studio/comment/1.0/", emptySchema⟩

def extensionsB : List (String × ExtensionB) :=
  [(mentionB.definition, mentionB), (likeB.definition, likeB),
    (commentB.definition, commentB)]

/-- `definition in extensions` for the package registry object, with the
same prototype-chain semantics. -/
def extensionsLookupB (d : String) : RegistryHit ExtensionB :=
  match (extensionsB.find? (fun p => p.1 = d)).map (·.2) with
  | some e => .own e
  | none => if d ∈ objectPrototypeKeys then .inherited else .absent

def definitionRegisteredB (d : Option String) : RegistryHit ExtensionB :=
  match d with
  | none => .absent
  | some s => extensionsLookupB s

/-- `GenericWebmention`: optional definition and payload fields. -/
structure GenericWebmention where
  source : String
  target : String
  definition : Option String
  payload : Option Json

/-- The package `parseExtension(mention, { banUnknownExtensions })`; a
definition matching an inherited `Object.prototype` member throws here
too. -/
def parseExtensionGeneric (mention : RawMention) (banUnknownExtensions : Bool) :
    Except ParseFailure GenericWebmention :=
  match jsonParseJs mention.payload with
  | none => .error (.response errInvalidPayloadJson)
  | some parsed =>
    match definitionRegisteredB mention.definition with
    | .own ext =>
      if ext.payload parsed then
        .ok ⟨mention.source, mention.target, some ext.definition, some parsed⟩
      else .error (.response errInvalidPayload)
    | .inherited => .error .thrown
    | .absent =>
      if jsTruthyStr mention.definition then
        if banUnknownExtensions then
          .error (.response ⟨"Webmention extension " ++ mention.definition.getD "" ++
            " is not supported by this receiver", 400⟩)
        else .ok ⟨mention.source, mention.target, mention.definition, some parsed⟩
      else if jsTruthyStr mention.payload then
        .error (.response errPayloadWithoutDefinition)
      else .ok ⟨mention.source, mention.target, none, none⟩

/-! ## HTML tag streams and the content verifiers (`src/app/receiver.ts`)

An HTML document is modelled by the stream of open-tag events the htmlparser2
tokenizer emits for it: tag name plus attribute list (attribute presence with
an empty value is how boolean attributes such as `webmention` arrive). -/

structure Tag where
  name : String
  attrs : List (String × String)

/-- `requireAttribute in attribs`. -/
def hasAttr (t : Tag) (a : String) : Bool :=
  t.attrs.any (fun p => p.1 = a)

/-- `attribs.x` — `none` when the attribute is absent (undefined). -/
def getAttr (t : Tag) (a : String) : Option String :=
  (t.attrs.find? (fun p => p.1 = a)).map (·.2)

/-- The `onopentag` callback of `validateHTML`: the tag counts only when the
required attribute is present, and then either an `<a href>` equal to the
target href, or an `<img>`/`<audio>`/`<video>` `src` equal to it. -/
def tagValidates (requireAttribute targetHref : String) (t : Tag) : Bool :=
  if ¬ hasAttr t requireAttribute then false
  else if t.name = "a" ∧ getAttr t "href" = some targetHref then true
  else if t.name ∉ ["img", "audio", "video"] then false
  else decide (getAttr t "src" = some targetHref)

/-- `validateHTML`: scan the tag stream, stopping at the first match (the
source sets `validated` and ends the parser). -/
def validateHTML (tags : List Tag) (targetHref requireAttribute : String) : Bool :=
  match tags with
  | [] => false
  | t :: rest =>
    if tagValidates requireAttribute targetHref t then true
    else validateHTML rest targetHref requireAttribute

/-- `typeof v === "object" && v !== null` for a parsed JSON value: arrays and
objects are objects in JavaScript, `null` is excluded explicitly. -/
def isObjectJs (j : Json) : Bool :=
  match j with
  | .jobj _ => true
  | .jarr _ => true
  | _ => false

/-- `obj[key] === target` for a non-object member: only a string leaf can be
strictly equal to the target string. -/
def jsLeafEq (v : Json) (target : String) : Bool :=
  match v with
  | .jstr s => s = target
  | _ => false

mutual

/-- `checkObject` from `src/app/receiver.ts`: walk the members (`for key in
obj` also iterates array indices), recursing into object-typed members and
comparing the rest with the target string. -/
def checkObject (j : Json) (target : String) : Bool :=
  match j with
  | .jobj fs => checkFields fs target
  | .jarr es => checkElems es target
  | _ => false

def checkFields (fs : JsonFields) (target : String) : Bool :=
  match fs with
  | .nil => false
  | .cons _ v rest =>
    (if isObjectJs v then checkObject v target else jsLeafEq v target) ||
      checkFields rest target

def checkElems (es : JsonList) (target : String) : Bool :=
  match es with
  | .nil => false
  | .cons v rest =>
    (if isObjectJs v then checkObject v target else jsLeafEq v target) ||
      checkElems rest target

end

/-- `validateJSON` on the decoded document: a top-level array checks each
item with `checkObject`; a top-level object is walked directly; any other
top-level value fails. -/
def validateJSONval (data : Json) (targetHref : String) : Bool :=
  match data with
  | .jarr items => checkElems' items targetHref
  | j => if isObjectJs j then checkObject j targetHref else false

where checkElems' (es : JsonList) (t : String) : Bool :=
  match es with
  | .nil => false
  | .cons item rest => checkObject item t || checkElems' rest t

/-- `text.includes(pattern)` (substring test). -/
def strContainsList (s pat : List Char) : Bool :=
  match s with
  | [] => pat.isEmpty
  | _ :: rest => pat.isPrefixOf s || strContainsList rest pat

def strContains (s pat : String) : Bool :=
  strContainsList s.toList pat.toList

/-! ## Domain patterns (`matchDomain` in `src/app/util.ts`)

The source builds a regex from the pattern by escaping every metacharacter
except `*` and replacing each `*` by a lazy wildcard, anchored at both ends.
For a boolean match this is glob matching over the lowercased strings: the
literal segments between the stars must occur in order, the first anchored at
the start and the last at the end. -/

/-- Earliest occurrence of `seg` in `s`; returns the remainder after it. -/
def dropAfterFirstSeg (seg s : List Char) : Option (List Char) :=
  match s with
  | [] => if seg.isEmpty then some [] else none
  | c :: cs =>
    if seg.isPrefixOf (c :: cs) then some ((c :: cs).drop seg.length)
    else dropAfterFirstSeg seg cs

/-- Matches `.*?seg₀.*?seg₁...segₙ` anchored at the end of `s`. -/
def globStar (segs : List (List Char)) (s : List Char) : Bool :=
  match segs with
  | [] => true
  | [last] => last.isSuffixOf s
  | seg :: rest =>
    match dropAfterFirstSeg seg s with
    | none => false
    | some s2 => globStar rest s2

/-- `split(sep)` on every occurrence of a single character, as in
JavaScript. -/
def splitOnChar (sep : Char) (cs : List Char) : List (List Char) :=
  match cs with
  | [] => [[]]
  | c :: rest =>
    match splitOnChar sep rest with
    | [] => [[]]
    | seg :: segs => if c = sep then [] :: seg :: segs else (c :: seg) :: segs

/-- The anchored wildcard test built from the escaped pattern. -/
def globMatch (pattern domain : List Char) : Bool :=
  match splitOnChar '*' pattern with
  | [] => domain.isEmpty
  | seg :: rest =>
    match rest with
    | [] => domain == seg
    | _ => seg.isPrefixOf domain && globStar rest (domain.drop seg.length)

/-- ASCII-range `toLowerCase` over the characters of a string. -/
def lowerChars (s : String) : List Char :=
  s.toList.map Char.toLower

/-- `matchDomain(pattern, domain)`: exact match short-circuits, otherwise the
lowercased wildcard match. -/
def matchDomain (pattern domain : String) : Bool :=
  if pattern = domain then true
  else globMatch (lowerChars pattern) (lowerChars domain)

/-! ## URLs

A small model of WHATWG `new URL` covering the `http:`/`https:` special
schemes the receiver and sender exercise: lowercased scheme and host, default
ports dropped, empty path serialized as `/`.  Anything outside this subset
parses to `none` (which models the constructor throwing).  Query and
fragment text is kept verbatim inside `path`; dot-segment normalization and
non-ASCII hosts are outside the model. -/

structure Url where
  protocol : String
  hostname : String
  port : String
  path : String
  deriving DecidableEq, Repr

/-- `url.host`: hostname plus any explicit port. -/
def Url.host (u : Url) : String :=
  if u.port.isEmpty then u.hostname else u.hostname ++ ":" ++ u.port

/-- `url.href`: the serialized absolute URL. -/
def Url.href (u : Url) : String :=
  u.protocol ++ "//" ++ u.host ++ u.path

def natOfDigits (ds : List Char) : Nat :=
  ds.foldl (fun n c => n * 10 + (c.toNat - '0'.toNat)) 0

def parseUrl (s : String) : Option Url :=
  let cs := s.toList
  let schemeChars := cs.takeWhile (fun c => c ≠ ':')
  let scheme := String.mk (schemeChars.map Char.toLower)
  match cs.drop schemeChars.length with
  | ':' :: '/' :: '/' :: r2 =>
    if scheme ≠ "http" ∧ scheme ≠ "https" then none
    else
      let auth := r2.takeWhile (fun c => c ≠ '/' ∧ c ≠ '?' ∧ c ≠ '#')
      let after := r2.drop auth.length
      let hostPart := auth.takeWhile (fun c => c ≠ ':')
      let hostname := String.mk (hostPart.map Char.toLower)
      if hostPart.isEmpty then none
      else
        let path :=
          match after with
          | [] => "/"
          | '/' :: _ => String.mk after
          | _ => "/" ++ String.mk after
        let port? : Option String :=
          match auth.drop hostPart.length with
          | [] => some ""
          | ':' :: ds =>
            if ds.isEmpty then some ""
            else if ¬ ds.all isDigit then none
            else
              let n := natOfDigits ds
              if (scheme = "https" ∧ n = 443) ∨ (scheme = "http" ∧ n = 80) then some ""
              else some (toString n)
          | _ => none
        match port? with
        | none => none
        | some port => some ⟨scheme ++ ":", hostname, port, path⟩
  | _ => none

/-- Everything up to and including the last `/` of a path. -/
def dirOf (path : List Char) : List Char :=
  (path.reverse.dropWhile (fun c => c ≠ '/')).reverse

/-- `new URL(ref, base)`: an absolute reference stands alone; otherwise the
reference is resolved against the base (protocol-relative, root-relative,
empty, or merged against the base directory). -/
def resolveUrl (ref base : String) : Option Url :=
  match parseUrl ref with
  | some u => some u
  | none =>
    match parseUrl base with
    | none => none
    | some b =>
      match ref.toList with
      | '/' :: '/' :: _ => parseUrl (b.protocol ++ ref)
      | '/' :: _ => some { b with path := ref }
      | [] => some b
      | _ => some { b with path := String.mk (dirOf b.path.toList) ++ ref }

/-! ## The receiver pipeline (`src/app/receiver.ts`)

The inbound request carries the pieces the handler inspects: method, whether
`request.body` is null, the `Content-Type` header, and the result of
`request.text()` (`none` models a read failure).  The fetch of the source is
an oracle from URL strings to responses; `none` models a rejected fetch.  A
response body carries both its raw text and its open-tag tokenization.  The
outcome records the HTTP response and the list of webmentions passed to the
storage collaborator's `insert` (the handler's success path holds only a
`TODO: Create Webmention` comment, so no code path appends to it). -/

structure RReq where
  method : String
  hasBody : Bool
  contentType : Option String
  textResult : Option String

structure RBody where
  text : String
  tags : List Tag

structure RResp where
  status : Nat
  statusText : String
  contentType : Option String
  body : Option RBody

structure ReceiverConfig where
  requireAttribute : String
  acceptedProtocols : List String
  acceptedTargetDomains : Option (List String)
  acceptedContentTypes : List String
  checkCustomContentTypeBody : Option (RReq → Option String → Option Bool)

/-- The option defaults of `Receiver`. -/
def receiverDefaults : ReceiverConfig :=
  { requireAttribute := "webmention"
    acceptedProtocols := ["http:", "https:"]
    acceptedTargetDomains := none
    acceptedContentTypes := ["text/html", "application/json", "text/plain"]
    checkCustomContentTypeBody := none }

structure RcvOut where
  status : Nat
  message : String
  inserted : List ParsedWebmention

/-- `+` and `%XX` decoding of a form-encoded component (multi-byte UTF-8
sequences are not recombined; the claims only involve ASCII). -/
def percentDecode : List Char → List Char
  | [] => []
  | '+' :: rest => ' ' :: percentDecode rest
  | '%' :: h1 :: h2 :: rest =>
    (match hexVal h1, hexVal h2 with
     | some v1, some v2 => Char.ofNat (v1 * 16 + v2) :: percentDecode rest
     | _, _ => '%' :: percentDecode (h1 :: h2 :: rest))
  | c :: rest => c :: percentDecode rest

/-- Split a form pair at its first `=`; a pair without `=` has value `""`. -/
def splitFirstEq (cs : List Char) : List Char × List Char :=
  let k := cs.takeWhile (fun c => c ≠ '=')
  (k, match cs.drop k.length with
      | '=' :: v => v
      | _ => [])

/-- `new URLSearchParams(bodyText).entries()`: split on `&`, drop empty
segments, split each pair at the first `=`, percent-decode both sides. -/
def formEntries (body : String) : List (String × String) :=
  (splitOnChar '&' body.toList).filterMap (fun seg =>
    if seg.isEmpty then none
    else
      let kv := splitFirstEq seg
      some (String.mk (percentDecode kv.1), String.mk (percentDecode kv.2)))

/-- `Object.fromEntries(entries).k`: the last entry for a key wins. -/
def formGet (entries : List (String × String)) (k : String) : Option String :=
  entries.foldl (fun acc p => if p.1 = k then some p.2 else acc) none

/-- `parseURL(url, name, acceptedProtocols)` from the receiver: missing or
empty input, an unparseable URL, and a protocol outside the accepted list
each produce their own 400 error. -/
def parseURLr (u : Option String) (name : String) (acceptedProtocols : List String) :
    Except Err Url :=
  match u with
  | none => .error ⟨"Missing " ++ name ++ " URL", 400⟩
  | some s =>
    if s.isEmpty then .error ⟨"Missing " ++ name ++ " URL", 400⟩
    else
      match parseUrl s with
      | none => .error ⟨"Invalid " ++ name ++ " URL", 400⟩
      | some uu =>
        if ¬ acceptedProtocols.contains uu.protocol then
          .error ⟨"Unsupported " ++ name ++ " protocol", 400⟩
        else .ok uu

/-- `response.ok`: status in the inclusive range 200–299. -/
def respOk (status : Nat) : Bool :=
  decide (200 ≤ status) && decide (status ≤ 299)

/-- `response.text()` with a null body reads as the empty string. -/
def respText (r : RResp) : String :=
  match r.body with
  | some b => b.text
  | none => ""

/-- String interpolation of a nullable content type. -/
def jsShowOptStr (o : Option String) : String := o.getD "null"

/-- The content-type dispatch of the receiver (the tail of the handler):
exact string comparison against `text/html`, `application/json` and
`text/plain`, then the optional custom checker, ending in 200 `OK` on a
successful verification. -/
def contentTypeDispatch (cfg : ReceiverConfig) (request : RReq) (response : RResp)
    (b : RBody) (target : Url) : RcvOut :=
  let contentType := response.contentType
  if contentType = some "text/html" then
    if validateHTML b.tags target.href cfg.requireAttribute then ⟨200, "OK", []⟩
    else ⟨400, "HTML body does not contain target", []⟩
  else if contentType = some "application/json" then
    match parseJson b.text with
    | none => ⟨400, "Error parsing JSON body", []⟩
    | some data =>
      if validateJSONval data target.href then ⟨200, "OK", []⟩
      else ⟨400, "JSON body does not contain target", []⟩
  else if contentType = some "text/plain" then
    if strContains b.text target.href then ⟨200, "OK", []⟩
    else ⟨400, "Plain text body does not contain target", []⟩
  else
    match cfg.checkCustomContentTypeBody with
    | none => ⟨400, "Unsupported content type", []⟩
    | some f =>
      match f request contentType with
      | none => ⟨400, "Error checking custom content type body", []⟩
      | some true => ⟨200, "OK", []⟩
      | some false => ⟨400, jsShowOptStr contentType ++ " body does not contain target", []⟩

/-- What the handler's promise settles to: a `Response`, or a rejection —
the handler itself produces no response when an exception (such as
`parseExtension`'s TypeError on a prototype-chain definition) escapes it. -/
inductive HandlerOutcome where
  | response (r : RcvOut)
  | crashed

def liftErr {α : Type} (x : Except Err α) : Except HandlerOutcome α :=
  match x with
  | .ok a => .ok a
  | .error e => .error (.response ⟨e.status, e.message, []⟩)

/-- The receiver handler, with early rejections as `throw`.  The parsed
extension is only checked for an error and otherwise discarded, exactly as in
the source; a thrown `parseExtension` is not caught anywhere in the handler,
so it rejects the whole request. -/
def receiverGo (cfg : ReceiverConfig) (net : String → Option RResp) (request : RReq) :
    Except HandlerOutcome RcvOut := do
  if request.method ≠ "POST" then
    throw (.response ⟨405, "WebMention Request must be POST", []⟩)
  if ¬ request.hasBody then
    throw (.response ⟨400, "Request body must not be null", []⟩)
  if request.contentType ≠ some "application/x-www-form-urlencoded" then
    throw (.response ⟨400, "Content-Type must be application/x-www-form-urlencoded", []⟩)
  let bodyText ←
    match request.textResult with
    | none => throw (.response ⟨400, "Malformed payload. Could not parse request body", []⟩)
    | some t => pure t
  let mention := formEntries bodyText
  let source ← liftErr (parseURLr (formGet mention "source") "source" cfg.acceptedProtocols)
  let target ← liftErr (parseURLr (formGet mention "target") "target" cfg.acceptedProtocols)
  if jsTruthyStr (formGet mention "definition") then
    match parseExtension
        ⟨(formGet mention "source").getD "", (formGet mention "target").getD "",
          formGet mention "definition", formGet mention "payload"⟩ with
    | .error (.response e) => throw (.response ⟨e.status, e.message, []⟩)
    | .error .thrown => throw .crashed
    | .ok _ => pure ()
  if source.href = target.href then
    throw (.response ⟨400, "Source and target are the same", []⟩)
  match cfg.acceptedTargetDomains with
  | some domains =>
    if ¬ domains.any (fun d => matchDomain d target.hostname) then
      throw (.response ⟨400, "Receiver does not support target domain", []⟩)
  | none => pure ()
  let response ←
    match net source.href with
    | none => throw (.response ⟨500, "Failed to fetch source", []⟩)
    | some r => pure r
  if response.status = 410 then
    return ⟨200, "Gone. Deleted Webmention", []⟩
  if ¬ respOk response.status then
    throw (.response ⟨400, "Failed to fetch source: " ++ toString response.status ++ "\n" ++
      respText response, []⟩)
  let b ←
    match response.body with
    | none => throw (.response ⟨400, "source response body is null", []⟩)
    | some b => pure b
  return contentTypeDispatch cfg request response b target

/-- The receiver as a total function from request and network to the
handler's outcome. -/
def receiverRun (cfg : ReceiverConfig) (net : String → Option RResp) (request : RReq) :
    HandlerOutcome :=
  match receiverGo cfg net request with
  | .ok r => .response r
  | .error o => o

/-! ## The sender (`src/app/sender.ts`)

Discovery fetches are an oracle from method and URL to a response (`none`
models a rejected fetch, which the source does not catch).  A response
carries the `Link` and `Content-Type` headers and, when present, the
tokenized HTML body. -/

inductive FetchMethod where
  | head
  | get
  deriving DecidableEq

structure SResp where
  status : Nat
  statusText : String
  link : Option String
  contentType : Option String
  tags : Option (List Tag)

inductive WmEndpoint where
  | discovered (endpoint : String)
  | error (message : String) (code : Nat)
  deriving DecidableEq, Repr

/-- The regex `/rel="([^"]+)"/`: the first position carrying `rel="` that is
followed by at least one non-quote character and a closing quote yields the
capture; otherwise the scan moves one character forward. -/
def relCapture (cs : List Char) : Option (List Char) :=
  match cs with
  | [] => none
  | _ :: rest =>
    match cs with
    | 'r' :: 'e' :: 'l' :: '=' :: '"' :: body =>
      let cap := body.takeWhile (fun c => c ≠ '"')
      if ¬ cap.isEmpty ∧ cap.length < body.length then some cap
      else relCapture rest
    | _ => relCapture rest

/-- One pass of the `for (const link of links)` loop in
`tryParseWebmentionLinkHeader`.  A link entry without a `;` leaves `relpart`
undefined, which the regex test coerces to the string `undefined`. -/
def linkLoop (links : List (List Char)) (status : Nat) : WmEndpoint :=
  match links with
  | [] => .error "No webmention Link header found" status
  | link :: rest =>
    let parts := splitOnChar ';' link
    let urlpart := parts.headD []
    let relpart := (parts.get? 1).getD "undefined".toList
    if ¬ (urlpart.head? = some '<' ∧ urlpart.getLast? = some '>') then
      linkLoop rest status
    else
      match relCapture relpart with
      | none => linkLoop rest status
      | some rel =>
        if rel = "webmention".toList then
          .discovered (String.mk ((urlpart.drop 1).dropLast))
        else linkLoop rest status

/-- `tryParseWebmentionLinkHeader`: split the `Link` header on commas and
return the first entry of the form `<url>; ... rel="webmention" ...`. -/
def tryParseWebmentionLinkHeader (response : SResp) : WmEndpoint :=
  match response.link with
  | none => .error "No Link header found" response.status
  | some header => linkLoop (splitOnChar ',' header.toList) response.status

/-- First `<link>` or `<a>` element whose `rel` attribute equals
`webmention`; the result is that element's `href` attribute (possibly
absent). -/
def findHtmlEndpoint (tags : List Tag) : Option (Option String) :=
  match tags with
  | [] => none
  | t :: rest =>
    if (t.name = "link" ∨ t.name = "a") ∧ getAttr t "rel" = some "webmention" then
      some (getAttr t "href")
    else findHtmlEndpoint rest

/-- `tryParseHTML`: requires a body and a content type containing
`text/html`, then scans the tag stream; a missing or empty `href` on the
matched element leaves the endpoint falsy. -/
def tryParseHTML (response : SResp) : WmEndpoint :=
  match response.tags with
  | none => .error "No body found" response.status
  | some tags =>
    match response.contentType with
    | none => .error "Not an HTML document" response.status
    | some ct =>
      if ¬ strContains ct "text/html" then .error "Not an HTML document" response.status
      else
        match findHtmlEndpoint tags with
        | some (some h) =>
          if h.isEmpty then
            .error "No webmention Link header, <link> or <a> element found" response.status
          else .discovered h
        | _ => .error "No webmention Link header, <link> or <a> element found" response.status

/-- `tryHeadRequest`: a rejected fetch propagates (the source has no catch);
a non-OK response reports its status text and code. -/
def tryHeadRequest (net : FetchMethod → String → Option SResp) (url : String) :
    Except Unit WmEndpoint :=
  match net .head url with
  | none => .error ()
  | some response =>
    if ¬ respOk response.status then .ok (.error response.statusText response.status)
    else .ok (tryParseWebmentionLinkHeader response)

/-- A JavaScript class instance is always truthy; this is the test
`if (webmentionEndpoint)` applies to the Link-header result in
`tryGetRequest`. -/
def wmTruthy (_ : WmEndpoint) : Bool := true

/-- `tryGetRequest`: fetch with GET, then return the Link-header result.
The source guards the HTML fallback with `if (webmentionEndpoint) return
webmentionEndpoint;`, and since that value is an object the guard always
takes the early return — `tryParseHTML` is unreachable. -/
def tryGetRequest (net : FetchMethod → String → Option SResp) (url : String) :
    Except Unit WmEndpoint :=
  match net .get url with
  | none => .error ()
  | some response =>
    if ¬ respOk response.status then .ok (.error response.statusText response.status)
    else
      let webmentionEndpoint := tryParseWebmentionLinkHeader response
      if wmTruthy webmentionEndpoint then .ok webmentionEndpoint
      else .ok (tryParseHTML response)

inductive CrossOriginPolicy where
  | sameOrigin
  | sameSite
  | crossOrigin
  deriving DecidableEq

def policyName (p : CrossOriginPolicy) : String :=
  match p with
  | .sameOrigin => "same-origin"
  | .sameSite => "same-site"
  | .crossOrigin => "cross-origin"

def crossOriginPolicyViolation (policy : CrossOriginPolicy)
    (violation expected found : String) : WmEndpoint :=
  .error (policyName policy ++ " policy violation (" ++ violation ++ "): expected " ++
    expected ++ ", found " ++ found) 500

/-- Lowercase and strip a single trailing dot. -/
def normaliseHostname (hostname : String) : String :=
  let lowered := hostname.toList.map Char.toLower
  String.mk (if lowered.getLast? = some '.' then lowered.dropLast else lowered)

/-- `isSameSite(check, relative)` from the source: true when the normalized
strings are equal, or when `check` has more dot-separated labels than
`relative` and its trailing labels equal `relative`.  (The call site passes
the target host as `check` and the resolved endpoint host as `relative`.) -/
def isSameSite (check relative : String) : Bool :=
  let check := normaliseHostname check
  let relative := normaliseHostname relative
  if check = relative then true
  else
    let checkParts := splitOnChar '.' check.toList
    let relativeParts := splitOnChar '.' relative.toList
    if checkParts.length ≤ relativeParts.length then false
    else checkParts.drop (checkParts.length - relativeParts.length) == relativeParts

structure SenderOptions where
  crossOriginPolicy : CrossOriginPolicy
  allowedOrigins : List Url

/-- `discoverWebmentionEndpoint`: HEAD first — the source combines the two
attempts as `(await tryHeadRequest(url)) ?? (await tryGetRequest(url))`, and
since `tryHeadRequest` always yields an object (never null or undefined) the
nullish coalescing always selects the HEAD result and the GET attempt is
never made.  The discovered endpoint is resolved against the target URL and
the cross-origin policy applied. -/
def discoverWebmentionEndpoint (net : FetchMethod → String → Option SResp)
    (url : String) (options : SenderOptions) : Except Unit WmEndpoint := do
  let webmentionEndpoint ← tryHeadRequest net url
  match webmentionEndpoint with
  | .error m c => return .error m c
  | .discovered e =>
    match resolveUrl e url with
    | none => throw ()
    | some resolvedUrl =>
      let resolved := resolvedUrl.href
      if options.crossOriginPolicy = .crossOrigin then return .discovered resolved
      match parseUrl url, parseUrl resolved with
      | some original, some found =>
        if options.allowedOrigins.any (fun origin =>
            origin.protocol = found.protocol ∧ origin.host = found.host ∧
              origin.port = found.port) then
          return .discovered resolved
        if original.protocol ≠ found.protocol then
          return crossOriginPolicyViolation options.crossOriginPolicy "protocol"
            original.protocol found.protocol
        if options.crossOriginPolicy = .sameOrigin then
          if original.host ≠ found.host then
            return crossOriginPolicyViolation options.crossOriginPolicy "host"
              original.host found.host
          else if original.port ≠ found.port then
            return crossOriginPolicyViolation options.crossOriginPolicy "port"
              original.port found.port
          else return .discovered resolved
        if options.crossOriginPolicy = .sameSite then
          if ¬ isSameSite original.host found.host then
            return crossOriginPolicyViolation options.crossOriginPolicy "host"
              original.host found.host
          else return .discovered resolved
        return .discovered resolved
      | _, _ => throw ()

/-! ## Notification (`notifyReceiver`)

The claim concerns how the endpoint's response is interpreted, so the
response is the input: status, status text, `Location` header, and the body
text (`none` models `response.text()` rejecting). -/

inductive WebmentionResponse where
  | accepted (location : Option String)
  | error (message : String) (code : Nat)
  deriving DecidableEq, Repr

structure NResp where
  status : Nat
  statusText : String
  location : Option String
  textResult : Option String
  deriving DecidableEq

/-- The trailing `try { text } catch { statusText }` error construction. -/
def respondWithBody (resp : NResp) : WebmentionResponse :=
  match resp.textResult with
  | some m => .error m resp.status
  | none => .error resp.statusText resp.status

/-- `notifyReceiver` response handling: on a 201 the source tests the
`Location` header with `if (header)` — JavaScript truthiness, so a missing
header and an empty-string header both fall through to the error
construction; any other 2xx is a plain acceptance; anything else is an
error with the response status. -/
def notifyReceiver (resp : NResp) : WebmentionResponse :=
  if resp.status = 201 then
    if jsTruthyStr resp.location then .accepted resp.location
    else respondWithBody resp
  else if respOk resp.status then .accepted none
  else respondWithBody resp

/-! ## Concrete scenarios used by the closed theorems below -/

/-- A well-formed inbound request: POST, form content type, source and
target fields. -/
def postReq : RReq :=
  ⟨"POST", true, some "application/x-www-form-urlencoded",
    some "source=https://b.example/s&target=https://a.example/p"⟩

/-- The target URL of `postReq` as parsed by the receiver. -/
def targetUrlA : Url := ⟨"https:", "a.example", "", "/p"⟩

/-- A fetched source document: HTML with an `<img webmention
src="https://a.example/p">`. -/
def respImgMention : RResp :=
  ⟨200, "OK", some "text/html",
    some ⟨"", [⟨"img", [("webmention", ""), ("src", "https://a.example/p")]⟩]⟩⟩

def netImgMention : String → Option RResp := fun u =>
  if u = "https://b.example/s" then some respImgMention else none

/-- A fetched source document: HTML containing `<a
href="https://a.example/p">` with no `webmention` attribute. -/
def respPlainAnchor : RResp :=
  ⟨200, "OK", some "text/html", some ⟨"", [⟨"a", [("href", "https://a.example/p")]⟩]⟩⟩

def netPlainAnchor : String → Option RResp := fun u =>
  if u = "https://b.example/s" then some respPlainAnchor else none

/-- The same document with the `webmention` attribute on the anchor. -/
def respAttrAnchor : RResp :=
  ⟨200, "OK", some "text/html",
    some ⟨"", [⟨"a", [("webmention", ""), ("href", "https://a.example/p")]⟩]⟩⟩

def netAttrAnchor : String → Option RResp := fun u =>
  if u = "https://b.example/s" then some respAttrAnchor else none

/-- A response with a parameterized HTML content type. -/
def respParamCT : RResp := ⟨200, "OK", some "text/html; charset=utf-8", none⟩

def emptyBody : RBody := ⟨"", []⟩

/-- A GET response whose `Link` header and HTML body both advertise a
webmention endpoint; the HEAD request fails with 405. -/
def respGetWithLink : SResp :=
  ⟨200, "OK", some "<https://t.example/wm>; rel=\"webmention\"", some "text/html",
    some [⟨"link", [("rel", "webmention"), ("href", "/wm")]⟩]⟩

def netHeadFails : FetchMethod → String → Option SResp := fun m _ =>
  match m with
  | .head => some ⟨405, "Method Not Allowed", none, none, none⟩
  | .get => some respGetWithLink

/-- A GET response with no `Link` header but an HTML body advertising the
endpoint `/wm`. -/
def respGetHtmlOnly : SResp :=
  ⟨200, "OK", none, some "text/html",
    some [⟨"link", [("rel", "webmention"), ("href", "/wm")]⟩]⟩

def netHeadFailsHtmlOnly : FetchMethod → String → Option SResp := fun m _ =>
  match m with
  | .head => some ⟨405, "Method Not Allowed", none, none, none⟩
  | .get => some respGetHtmlOnly

/-- HEAD succeeds and advertises an endpoint on `sub.example.com`. -/
def netEndpointOnSub : FetchMethod → String → Option SResp := fun m _ =>
  match m with
  | .head =>
    some ⟨200, "OK", some "<https://sub.example.com/wm>; rel=\"webmention\"", none, none⟩
  | .get => none

/-- HEAD succeeds and advertises an endpoint on `example.com`. -/
def netEndpointOnApex : FetchMethod → String → Option SResp := fun m _ =>
  match m with
  | .head =>
    some ⟨200, "OK", some "<https://example.com/wm>; rel=\"webmention\"", none, none⟩
  | .get => none

/-- A 201 response from the notified endpoint that carries no `Location`
header. -/
def resp201NoLocation : NResp := ⟨201, "Created", none, some "no location"⟩

/-- A 204 response from the notified endpoint. -/
def resp204 : NResp := ⟨204, "No Content", none, none⟩

/-! ## Theorems -/

/-- C1: a POST request that passes every validation and verification step —
method, body, content type, URL parsing and protocols, no extension fields,
distinct source and target, no domain allow-list, a 200 HTML source fetch,
and a matching `<img webmention src>` — is answered with HTTP 200, but the
list of webmentions handed to the storage collaborator's `insert` is empty:
the success path of the handler ends in a `TODO: Create Webmention` comment
and never calls `insert`, contradicting the claim that the validated
webmention is inserted. -/
theorem c1_accepted_request_not_inserted :
    receiverRun receiverDefaults netImgMention postReq = .response ⟨200, "OK", []⟩ := by
  rfl

/-- C2: endpoint discovery never falls back from HEAD to GET.  With a HEAD
response of 405 and a GET response whose `Link` header advertises the
endpoint, discovery returns the HEAD error — the source combines the two
attempts with `??`, whose left operand is never nullish.  Likewise, a GET
request whose response has no `Link` header but an HTML body containing
`<link rel="webmention" href="/wm">` returns the Link-header error: the
guard `if (webmentionEndpoint)` is always truthy, so `tryParseHTML` — which
would have found `/wm`, as the third conjunct shows — is unreachable. -/
theorem c2_discovery_fallbacks_unreachable :
    discoverWebmentionEndpoint netHeadFails "https://t.example/"
        ⟨.crossOrigin, []⟩ = .ok (.error "Method Not Allowed" 405) ∧
      tryGetRequest netHeadFailsHtmlOnly "https://t.example/" =
        .ok (.error "No Link header found" 200) ∧
      tryParseHTML respGetHtmlOnly = .discovered "/wm" :=
  ⟨rfl, rfl, rfl⟩

/-- C3: `reparseExtension` fails with the `Invalid webmention kind` error on
webmentions produced by `parseExtension` itself.  A request with neither
definition nor payload parses to a basic webmention, and an unregistered
definition parses to an unknown-kind webmention; `extensionFromKind` is
built only from the registered extensions (kinds `like` and `comment`), so
reparsing either value hits the `InvalidKind` branch — which the claim says
is unreachable on parse outputs. -/
theorem c3_reparse_rejects_parse_outputs :
    parseExtension ⟨"https://b.example/s", "https://a.example/p", none, none⟩ =
        .ok (.basic "https://b.example/s" "https://a.example/p") ∧
      reparseExtension (.basic "https://b.example/s" "https://a.example/p") =
        .error errInvalidKind ∧
      parseExtension ⟨"https://b.example/s", "https://a.example/p",
          some "https://x.example/ext/1.0/", some "null"⟩ =
        .ok (.unknownExt "https://b.example/s" "https://a.example/p"
          "https://x.example/ext/1.0/" .jnull) ∧
      reparseExtension (.unknownExt "https://b.example/s" "https://a.example/p"
          "https://x.example/ext/1.0/" .jnull) =
        .error errInvalidKind :=
  ⟨rfl, rfl, rfl, rfl⟩

/-- C4: the same-site policy check runs in the direction opposite to the
claim.  With policy `same-site`, no allowed-origins exemption and matching
protocols, a target on `example.com` whose discovered endpoint is on
`sub.example.com` is rejected as a host policy violation, while a target on
`sub.example.com` whose endpoint is on `example.com` is accepted — the
source passes `(original.host, found.host)` to `isSameSite`, which tests
whether its first argument is a subdomain of its second. -/
theorem c4_same_site_direction_reversed :
    discoverWebmentionEndpoint netEndpointOnSub "https://example.com/post"
        ⟨.sameSite, []⟩ =
      .ok (.error
        "same-site policy violation (host): expected example.com, found sub.example.com"
        500) ∧
      discoverWebmentionEndpoint netEndpointOnApex "https://sub.example.com/post"
          ⟨.sameSite, []⟩ =
        .ok (.discovered "https://example.com/wm") ∧
      isSameSite "example.com" "sub.example.com" = false ∧
      isSameSite "sub.example.com" "example.com" = true :=
  ⟨rfl, rfl, rfl, rfl⟩

/-- C9 counterexample: with default options, a POST whose target is
`https://a.example/p` and whose source fetch returns HTML containing
`<a href="https://a.example/p">` is answered with 400, not 200 — the default
`requireAttribute` (`webmention`) is absent from the anchor. -/
theorem c9_plain_anchor_rejected :
    receiverRun receiverDefaults netPlainAnchor postReq =
      .response ⟨400, "HTML body does not contain target", []⟩ := by
  rfl

/-- C9 amended: the same request is answered with HTTP 200 once the anchor
also carries the configured `requireAttribute` (default `webmention`), i.e.
the fetched document contains `<a webmention href="https://a.example/p">`. -/
theorem c9_attributed_anchor_accepted :
    receiverRun receiverDefaults netAttrAnchor postReq = .response ⟨200, "OK", []⟩ := by
  rfl

/-- C5 counterexample: a 201 response without a `Location` header is a 2xx
status for which `notifyReceiver` returns an `Error` (carrying the body text
and code 201), refuting the claim that send never returns `Error` on 2xx. -/
theorem c5_error_on_201_without_location :
    respOk 201 = true ∧
      notifyReceiver resp201NoLocation = .error "no location" 201 :=
  ⟨rfl, rfl⟩

/-- C5 amended: `notifyReceiver` returns `Accepted` carrying the `Location`
header value on a 201 response whose `Location` header is present and
non-empty, `Accepted` without a location on any other 2xx status, and
otherwise an `Error` whose code is the response status — including on a 201
response whose `Location` header is absent or the empty string (the source
tests the header with JavaScript truthiness), which also yields an `Error`
with code 201. -/
theorem c5_notify_response_cases (resp : NResp) :
    (∀ l, resp.status = 201 → resp.location = some l → l ≠ "" →
        notifyReceiver resp = .accepted (some l)) ∧
      (respOk resp.status = true → resp.status ≠ 201 →
        notifyReceiver resp = .accepted none) ∧
      (respOk resp.status = false →
        ∃ m, notifyReceiver resp = .error m resp.status) ∧
      (resp.status = 201 → jsTruthyStr resp.location = false →
        ∃ m, notifyReceiver resp = .error m resp.status) := by
  refine ⟨?_, ?_, ?_, ?_⟩
  · intro l h1 h2 h3
    simp [notifyReceiver, h1, h2, jsTruthyStr, h3]
  · intro h1 h2
    simp [notifyReceiver, h1, h2]
  · intro h1
    by_cases h2 : resp.status = 201
    · rw [h2] at h1
      exact absurd h1 (by decide)
    · cases h3 : resp.textResult with
      | some m => exact ⟨m, by simp [notifyReceiver, h2, h1, respondWithBody, h3]⟩
      | none =>
        exact ⟨resp.statusText, by simp [notifyReceiver, h2, h1, respondWithBody, h3]⟩
  · intro h1 h2
    cases h3 : resp.textResult with
    | some m => exact ⟨m, by simp [notifyReceiver, h1, h2, respondWithBody, h3]⟩
    | none =>
      exact ⟨resp.statusText, by simp [notifyReceiver, h1, h2, respondWithBody, h3]⟩

/-- C5 witness: the amended theorem applied to the 204 response. -/
theorem c5_notify_response_cases_witness :
    respOk resp204.status = true ∧ resp204.status ≠ 201 ∧
      notifyReceiver resp204 = .accepted none :=
  ⟨rfl, by decide, (c5_notify_response_cases resp204).2.1 rfl (by decide)⟩

theorem extensionsLookup_like : extensionsLookup like.definition = .own like := by
  rfl

theorem extensionsLookup_comment : extensionsLookup comment.definition = .own comment := by
  rfl

theorem extensionFromKind_like : extensionFromKind ExtensionKind.like = some like := by
  rfl

theorem extensionFromKind_comment :
    extensionFromKind ExtensionKind.comment = some comment := by
  rfl

/-- C6: for each registered extension (`like` and `comment`) and any payload
accepted by its schema, parsing yields a webmention of that extension's kind
carrying the payload, and reparsing it recovers exactly the original
definition URI and payload. -/
theorem c6_parse_reparse_roundtrip (e : Extension) (he : e ∈ extensionValues)
    (src tgt : String) (rawPayload : Option String) (v : Json)
    (hv : jsonParseJs rawPayload = some v) (hvalid : e.payload v = true) :
    parseExtension ⟨src, tgt, some e.definition, rawPayload⟩ =
        .ok (.extended src tgt e.kind v) ∧
      reparseExtension (.extended src tgt e.kind v) =
        .ok ⟨src, tgt, e.definition, v⟩ := by
  have he2 : e = like ∨ e = comment := by
    simpa [extensionValues, extensions] using he
  rcases he2 with rfl | rfl
  · constructor
    · unfold parseExtension
      rw [hv]
      simp [definitionRegistered, extensionsLookup_like, hvalid]
    · simp [reparseExtension, ParsedWebmention.kind, like, extensionFromKind_like]
  · constructor
    · unfold parseExtension
      rw [hv]
      simp [definitionRegistered, extensionsLookup_comment, hvalid]
    · simp [reparseExtension, ParsedWebmention.kind, comment, extensionFromKind_comment]

/-- C6 witness: the round trip at the `like` extension with payload `{}`. -/
theorem c6_parse_reparse_roundtrip_witness :
    like ∈ extensionValues ∧ jsonParseJs (some "\x7b\x7d") = some (.jobj .nil) ∧
      like.payload (.jobj .nil) = true ∧
      (parseExtension ⟨"https://b.example/s", "https://a.example/p",
          some like.definition, some "\x7b\x7d"⟩ =
        .ok (.extended "https://b.example/s" "https://a.example/p" like.kind
          (.jobj .nil)) ∧
      reparseExtension (.extended "https://b.example/s" "https://a.example/p"
          like.kind (.jobj .nil)) =
        .ok ⟨"https://b.example/s", "https://a.example/p", like.definition,
          .jobj .nil⟩) :=
  ⟨by simp [extensionValues, extensions], rfl, rfl,
    c6_parse_reparse_roundtrip like (by simp [extensionValues, extensions])
      "https://b.example/s" "https://a.example/p" (some "\x7b\x7d") (.jobj .nil)
      rfl rfl⟩

/-- C7 counterexample: `toString` is not a registered definition — it is not
an own key of either registry — yet, with the ban unset and the valid
payload `null`, parse does not produce the unknown-extension passthrough for
it: `definition in extensions` finds the inherited
`Object.prototype.toString`, and `extensions[definition].payload.safeParse`
throws an uncaught TypeError, in both registry versions. -/
theorem c7_prototype_definition_throws :
    (extensions.find? (fun p => p.1 = "toString")) = none ∧
      (extensionsB.find? (fun p => p.1 = "toString")) = none ∧
      extensionsLookup "toString" = .inherited ∧
      parseExtension ⟨"https://b.example/s", "https://a.example/p",
          some "toString", some "null"⟩ = .error .thrown ∧
      parseExtensionGeneric ⟨"https://b.example/s", "https://a.example/p",
          some "toString", some "null"⟩ false = .error .thrown :=
  ⟨rfl, rfl, rfl, rfl, rfl⟩

theorem extensionsLookup_proto (d : String) (hd : d ∈ objectPrototypeKeys) :
    extensionsLookup d = .inherited ∧ extensionsLookupB d = .inherited := by
  fin_cases hd <;> exact ⟨rfl, rfl⟩

/-- C7 amended: the case analysis of `parseExtension` (the kind-producing
registry and the package variant with `banUnknownExtensions`).  A payload
that is not valid JSON fails with the invalid-payload-JSON error regardless
of the definition; a valid payload with no definition fails with the
payload-without-definition error; neither definition nor payload yields a
basic webmention with no payload; an unregistered non-empty definition that
is not an inherited `Object.prototype` property name, with the ban unset,
yields an unknown-kind webmention carrying the raw definition URI and the
parsed payload unchanged (the package variant likewise passes definition and
payload through); and a definition equal to such an inherited property name
passes the `in` test and makes parse throw an uncaught TypeError instead. -/
theorem c7_parse_extension_cases :
    (∀ (src tgt : String) (d : Option String) (p : String), parseJson p = none →
        parseExtension ⟨src, tgt, d, some p⟩ =
          .error (.response errInvalidPayloadJson)) ∧
      (∀ (src tgt p : String) (v : Json), parseJson p = some v →
        parseExtension ⟨src, tgt, none, some p⟩ =
          .error (.response errPayloadWithoutDefinition)) ∧
      (∀ src tgt : String,
        parseExtension ⟨src, tgt, none, none⟩ = .ok (.basic src tgt)) ∧
      (∀ (src tgt d : String) (rawPayload : Option String) (v : Json), d ≠ "" →
        extensionsLookup d = .absent → jsonParseJs rawPayload = some v →
        parseExtension ⟨src, tgt, some d, rawPayload⟩ =
          .ok (.unknownExt src tgt d v)) ∧
      (∀ (src tgt d : String) (rawPayload : Option String) (v : Json), d ≠ "" →
        extensionsLookupB d = .absent → jsonParseJs rawPayload = some v →
        parseExtensionGeneric ⟨src, tgt, some d, rawPayload⟩ false =
          .ok ⟨src, tgt, some d, some v⟩) ∧
      (∀ (src tgt d : String) (rawPayload : Option String) (v : Json),
        d ∈ objectPrototypeKeys → jsonParseJs rawPayload = some v →
        parseExtension ⟨src, tgt, some d, rawPayload⟩ = .error .thrown ∧
          parseExtensionGeneric ⟨src, tgt, some d, rawPayload⟩ false =
            .error .thrown) := by
  refine ⟨?_, ?_, ?_, ?_, ?_, ?_⟩
  · intro src tgt d p hp
    simp [parseExtension, jsonParseJs, hp]
  · intro src tgt p v hv
    have hp : p ≠ "" := by
      intro h0
      rw [h0] at hv
      exact Option.noConfusion hv
    unfold parseExtension
    simp [jsonParseJs, hv, definitionRegistered, jsTruthyStr, hp]
  · intro src tgt
    rfl
  · intro src tgt d rawPayload v hd hlook hv
    unfold parseExtension
    rw [hv]
    simp [definitionRegistered, hlook, jsTruthyStr, hd]
  · intro src tgt d rawPayload v hd hlook hv
    unfold parseExtensionGeneric
    rw [hv]
    simp [definitionRegisteredB, hlook, jsTruthyStr, hd]
  · intro src tgt d rawPayload v hd hv
    obtain ⟨h1, h2⟩ := extensionsLookup_proto d hd
    constructor
    · unfold parseExtension
      rw [hv]
      simp [definitionRegistered, h1]
    · unfold parseExtensionGeneric
      rw [hv]
      simp [definitionRegisteredB, h2]

/-- C7 witness: the invalid-JSON case at the payload text `{`, the
payload-without-definition case at `{}`, the unknown-extension passthrough
at an unregistered definition URI, and the thrown case at `valueOf`. -/
theorem c7_parse_extension_cases_witness :
    parseJson "\x7b" = none ∧
      parseExtension ⟨"https://b.example/s", "https://a.example/p", none,
          some "\x7b"⟩ = .error (.response errInvalidPayloadJson) ∧
      parseJson "\x7b\x7d" = some (.jobj .nil) ∧
      parseExtension ⟨"https://b.example/s", "https://a.example/p", none,
          some "\x7b\x7d"⟩ = .error (.response errPayloadWithoutDefinition) ∧
      extensionsLookup "https://x.example/ext/1.0/" = .absent ∧
      parseExtension ⟨"https://b.example/s", "https://a.example/p",
          some "https://x.example/ext/1.0/", some "\x7b\x7d"⟩ =
        .ok (.unknownExt "https://b.example/s" "https://a.example/p"
          "https://x.example/ext/1.0/" (.jobj .nil)) ∧
      "valueOf" ∈ objectPrototypeKeys ∧
      parseExtension ⟨"https://b.example/s", "https://a.example/p",
          some "valueOf", some "null"⟩ = .error .thrown :=
  ⟨rfl,
    c7_parse_extension_cases.1 "https://b.example/s" "https://a.example/p" none
      "\x7b" rfl,
    rfl,
    c7_parse_extension_cases.2.1 "https://b.example/s" "https://a.example/p"
      "\x7b\x7d" (.jobj .nil) rfl,
    rfl,
    c7_parse_extension_cases.2.2.2.1 "https://b.example/s" "https://a.example/p"
      "https://x.example/ext/1.0/" (some "\x7b\x7d") (.jobj .nil) (by decide) rfl
      rfl,
    by decide,
    (c7_parse_extension_cases.2.2.2.2.2 "https://b.example/s"
      "https://a.example/p" "valueOf" (some "null") Json.jnull (by decide) rfl).1⟩

theorem tagValidates_iff (requireAttribute targetHref : String) (t : Tag) :
    tagValidates requireAttribute targetHref t = true ↔
      hasAttr t requireAttribute = true ∧
        ((t.name = "a" ∧ getAttr t "href" = some targetHref) ∨
          (t.name ∈ ["img", "audio", "video"] ∧
            getAttr t "src" = some targetHref)) := by
  unfold tagValidates
  by_cases h1 : hasAttr t requireAttribute
  · by_cases h2 : t.name = "a" ∧ getAttr t "href" = some targetHref
    · simp [h1, h2]
    · by_cases h3 : t.name ∈ ["img", "audio", "video"]
      · simp [h1, h2, h3]
      · simp [h1, h2, h3]
  · simp [h1]

/-- C8: `validateHTML` succeeds exactly when the tag stream of the document
contains a tag that carries the configured `requireAttribute` and is either
an `<a>` whose `href` equals the target href or an `<img>`, `<audio>` or
`<video>` whose `src` equals it; the scan is written to stop at the first
such tag. -/
theorem c8_validateHTML_iff_match (tags : List Tag)
    (targetHref requireAttribute : String) :
    validateHTML tags targetHref requireAttribute = true ↔
      ∃ t ∈ tags, hasAttr t requireAttribute = true ∧
        ((t.name = "a" ∧ getAttr t "href" = some targetHref) ∨
          (t.name ∈ ["img", "audio", "video"] ∧
            getAttr t "src" = some targetHref)) := by
  induction tags with
  | nil => simp [validateHTML]
  | cons t rest ih =>
    rw [validateHTML]
    by_cases h : tagValidates requireAttribute targetHref t = true
    · rw [if_pos h]
      constructor
      · intro _
        exact ⟨t, List.mem_cons_self t rest, (tagValidates_iff _ _ _).mp h⟩
      · intro _
        rfl
    · rw [if_neg h, ih]
      constructor
      · rintro ⟨u, hu, hp⟩
        exact ⟨u, List.mem_cons_of_mem _ hu, hp⟩
      · rintro ⟨u, hu, hp⟩
        rcases List.mem_cons.mp hu with rfl | hu2
        · exact absurd ((tagValidates_iff _ _ _).mpr hp) h
        · exact ⟨u, hu2, hp⟩

/-- C10: the receiver dispatches on the fetched `Content-Type` by exact
string equality; with the default configuration (no custom checker), any
content type other than `text/html`, `application/json` or `text/plain` —
including a recognized type carrying parameters — is rejected with 400
`Unsupported content type` and reaches none of the three verifiers. -/
theorem c10_unsupported_content_type_rejected (request : RReq) (response : RResp)
    (b : RBody) (target : Url) (ct : String)
    (hct : response.contentType = some ct) (h1 : ct ≠ "text/html")
    (h2 : ct ≠ "application/json") (h3 : ct ≠ "text/plain") :
    contentTypeDispatch receiverDefaults request response b target =
      ⟨400, "Unsupported content type", []⟩ := by
  unfold contentTypeDispatch
  rw [hct]
  simp [receiverDefaults, h1, h2, h3]

/-- C10 witness: the dispatch rejection at `text/html; charset=utf-8`. -/
theorem c10_unsupported_content_type_rejected_witness :
    respParamCT.contentType = some "text/html; charset=utf-8" ∧
      contentTypeDispatch receiverDefaults postReq respParamCT emptyBody targetUrlA =
        ⟨400, "Unsupported content type", []⟩ :=
  ⟨rfl,
    c10_unsupported_content_type_rejected postReq respParamCT emptyBody targetUrlA
      "text/html; charset=utf-8" rfl (by decide) (by decide) (by decide)⟩
